import Mathlib

/-!
Verification of the agent-royale payment-channel casino engine.

The development shallowly embeds the off-chain gaming engine
(games/slots.js, games/coinflip.js, games/lotto.js, games/base-game.js,
gaming-engine.js) and the on-chain settlement contract
(contracts/ChannelManager.sol).  JavaScript BigInt arithmetic is embedded
as `Int` (BigInt division truncates toward zero, hence `Int.tdiv`);
Solidity uint256 arithmetic in the settled range is embedded as `Nat`.
SHA-256 (the platform primitive from node:crypto) is kept abstract as a
function parameter `sha256 : String → List Nat` producing the digest
bytes; all derivations from the digest are embedded exactly.
JavaScript `Map`s are embedded as association lists with the usual
get/set/delete operations; wall-clock timestamps are `Nat` parameters.
The per-game cumulative statistics (`this._stats`) are not modelled:
no channel state or result field depends on them.
-/

namespace Casino


/-- Coinflip choice / result. -/
inductive Coin where
  | heads
  | tails
deriving DecidableEq, Repr

/-- One entry of `channel.games` (round metadata pushed by each game;
timestamps are omitted, no claim depends on them). -/
inductive GameRecord where
  | slots (nonce : Nat) (bet : Int) (reels : List Nat) (multiplier : Int) (payout : Int)
  | coinflip (nonce : Nat) (bet : Int) (choice : Option Coin) (result : Coin) (won : Bool)
      (payout : Int)
  | lottoBuy (nonce : Nat) (drawId : Nat) (pickedNumber : Nat) (ticketCount : Nat) (cost : Int)
deriving DecidableEq, Repr

/-- In-memory channel record of the gaming engine (gaming-engine.js
`openChannel`): agent key, immutable deposits, current balances, nonce,
resolved-round list. -/
structure Channel where
  agent : String
  agentDeposit : Int
  casinoDeposit : Int
  agentBalance : Int
  casinoBalance : Int
  nonce : Nat
  games : List GameRecord
deriving DecidableEq, Repr

/-- Pending commit record (`ctx.pendingCommits` values).  `choice` is
present for coinflip commits and absent for slots commits. -/
structure PendingCommit where
  seed : String
  betWei : Int
  choice : Option Coin
  game : String
  timestamp : Nat
deriving DecidableEq, Repr

/-- JavaScript `Map.get`: first matching key. -/
def aget {κ β : Type} [DecidableEq κ] : List (κ × β) → κ → Option β
  | [], _ => none
  | (k, v) :: rest, key => if k = key then some v else aget rest key

/-- JavaScript `Map.set`: replace in place, or append a fresh key. -/
def aset {κ β : Type} [DecidableEq κ] : List (κ × β) → κ → β → List (κ × β)
  | [], key, v => [(key, v)]
  | (k, w) :: rest, key, v =>
      if k = key then (key, v) :: rest else (k, w) :: aset rest key v

/-- JavaScript `Map.delete`. -/
def adel {κ β : Type} [DecidableEq κ] : List (κ × β) → κ → List (κ × β)
  | [], _ => []
  | (k, w) :: rest, key => if k = key then rest else (k, w) :: adel rest key

/-- The pending-commit store.  The source keys the map by the template
string `agent:game`; agent addresses contain no colon, so the key is in
bijection with the pair `(agent, gameName)`, which is how we embed it. -/
abbrev PendingStore := List ((String × String) × PendingCommit)

/-- `unclaimedWinnings` map (lotto.js): agent, then BigInt amount. -/
abbrev UnclaimedStore := List (String × Int)

/-- `unclaimedWinnings.get(agent) || 0n`. -/
def ugetD (u : UnclaimedStore) (a : String) : Int := (aget u a).getD 0

/-- Lotto draw record (lotto.js `_startNewDraw`). -/
structure Draw where
  drawId : Nat
  casinoSeed : String
  commitment : String
  drawTime : Nat
  tickets : List (String × List Nat)
  totalPool : Int
  drawn : Bool
  winningNumber : Option Nat
deriving DecidableEq, Repr

/-- Whole engine state relevant to a single agent channel: the channel
record, the process-wide pending-commit map, the lotto unclaimed-winnings
map and the current lotto draw. -/
structure EngState where
  channel : Channel
  pending : PendingStore
  unclaimed : UnclaimedStore
  draw : Draw
deriving DecidableEq, Repr

/-- True exactly on the error constructor. -/
def isErr {ε α : Type} : Except ε α → Bool
  | .error _ => true
  | .ok _ => false

instance {ε α : Type} [DecidableEq ε] [DecidableEq α] : DecidableEq (Except ε α) := fun a b => by
  cases a <;> cases b
  case error.error e f =>
    exact if h : e = f then isTrue (by rw [h]) else isFalse (by simp [h])
  case error.ok e v => exact isFalse (by simp)
  case ok.error u f => exact isFalse (by simp)
  case ok.ok u v =>
    exact if h : u = v then isTrue (by rw [h]) else isFalse (by simp [h])

-- ── BaseGame.validateBet ─────────────────────────────────────────────

/-- base-game.js `validateBet(channel, betWei, safetyMargin = 2)`.
`maxMultiplier` is the per-game worst-case multiplier. -/
def validateBet (maxMultiplier : Nat) (safetyMargin : Nat) (ch : Channel) (betWei : Int) :
    Except String Unit :=
  if betWei ≤ 0 then .error "Bet must be positive"
  else if ch.agentBalance < betWei then .error "Insufficient balance"
  else if betWei * (maxMultiplier : Int) * (safetyMargin : Int) > ch.casinoBalance then
    .error "Max bet (bankroll limit)"
  else .ok ()

-- ── Commit-reveal result derivation (commit-reveal.js) ───────────────

/-- `Buffer.readUInt32BE(off)` on the digest bytes. -/
def be32 (h : List Nat) (off : Nat) : Nat :=
  h.getD off 0 * 16777216 + h.getD (off + 1) 0 * 65536 +
  h.getD (off + 2) 0 * 256 + h.getD (off + 3) 0

/-- commit-reveal.js `computeResult`: the digest of
`casinoSeed + ":" + agentSeed + ":" + nonce.toString()`.  The SHA-256
primitive itself is the abstract parameter. -/
def computeResultHash (sha256 : String → List Nat) (casinoSeed agentSeed : String)
    (nonce : Nat) : List Nat :=
  sha256 (casinoSeed ++ ":" ++ agentSeed ++ ":" ++ toString nonce)

-- ── Slots game (games/slots.js) ──────────────────────────────────────

def WEIGHTS : List Nat := [30, 25, 20, 15, 10]

def PAYOUTS : List Int := [5, 10, 25, 50, 290]

def COMMIT_TIMEOUT : Nat := 5 * 60 * 1000

/-- The cumulative-weight loop of slots.js `_getSymbol`. -/
def getSymbolAux : List Nat → Nat → Nat → Nat → Nat
  | [], _, _, _ => 0
  | w :: ws, rng, cumulative, i =>
      if rng < cumulative + w then i else getSymbolAux ws rng (cumulative + w) (i + 1)

/-- slots.js `_getSymbol(rng)` with `rng < 100`. -/
def getSymbol (rng : Nat) : Nat := getSymbolAux WEIGHTS rng 0 0

/-- Result payload of a slots or coinflip commit. -/
structure CommitResult where
  commitment : String
  betAmount : Int
  choice : Option Coin
deriving DecidableEq, Repr

/-- Result payload of slots.js `_reveal`.  `reels` holds the reel
indices (the source's `reelIndices`; its `reels` field is the fixed
display mapping `SYMBOLS[i]` of the same indices). -/
structure SlotsResult where
  reels : List Nat
  multiplier : Int
  payout : Int
  agentBalance : Int
  casinoBalance : Int
  nonce : Nat
  signature : String
deriving DecidableEq, Repr

/-- slots.js `_commit`: validate the bet, reject when a pending commit
exists for `(agent, slots)`, otherwise store the fresh casino seed.  The
fresh seed and commitment produced by `CommitReveal.commit()` are inputs
(random bytes).  Returns the result (or thrown error) and the next
engine state. -/
def slotsCommit (seed commitment : String) (now : Nat) (betWei : Int) (s : EngState) :
    Except String CommitResult × EngState :=
  match validateBet 290 2 s.channel betWei with
  | .error e => (.error e, s)
  | .ok _ =>
    let key := (s.channel.agent, "slots")
    match aget s.pending key with
    | some _ => (.error "Already have a pending slots spin. Reveal or wait for timeout.", s)
    | none =>
      (.ok ⟨commitment, betWei, none⟩,
       { s with pending := aset s.pending key ⟨seed, betWei, none, "slots", now⟩ })

/-- Multiplier selection of slots.js `_reveal`: `PAYOUTS[reels[0]]` when
all three reels match, otherwise 0. -/
def slotsMultiplier (r0 r1 r2 : Nat) : Int :=
  if r0 = r1 ∧ r1 = r2 then PAYOUTS.getD r0 0 else 0

/-- Payout computation of slots.js `_reveal`: `betWei * multiplier` on a
three-of-a-kind, then capped to the casino balance. -/
def slotsPayout (betWei casinoBalance : Int) (r0 r1 r2 : Nat) : Int :=
  let payout0 := if r0 = r1 ∧ r1 = r2 then betWei * slotsMultiplier r0 r1 r2 else 0
  if payout0 > casinoBalance then casinoBalance else payout0

/-- slots.js `_reveal`.  Mirrors the source ordering exactly: expiry
check (clearing the commit), balance re-check (clearing the commit),
result derivation, payout cap, in-place balance/nonce update, round
record push, then the signature request; the pending commit is deleted
only after a successful signature.  `sign` is the signer response
(`none` embeds a thrown signing error, which propagates with the channel
left as mutated). -/
def slotsReveal (sha256 : String → List Nat) (agentSeed : String) (now : Nat)
    (sign : Option String) (s : EngState) : Except String SlotsResult × EngState :=
  let ch := s.channel
  let key := (ch.agent, "slots")
  match aget s.pending key with
  | none => (.error "No pending slot spin", s)
  | some pending =>
    if now - pending.timestamp > COMMIT_TIMEOUT then
      (.error "Commitment expired (5min timeout)", { s with pending := adel s.pending key })
    else if ch.agentBalance < pending.betWei then
      (.error "Insufficient balance at reveal", { s with pending := adel s.pending key })
    else
      let h := computeResultHash sha256 pending.seed agentSeed ch.nonce
      let r0 := getSymbol (be32 h 0 % 100)
      let r1 := getSymbol (be32 h 4 % 100)
      let r2 := getSymbol (be32 h 8 % 100)
      let multiplier := slotsMultiplier r0 r1 r2
      let payout := slotsPayout pending.betWei ch.casinoBalance r0 r1 r2
      let ch' : Channel :=
        { ch with
          agentBalance := ch.agentBalance - pending.betWei + payout
          casinoBalance := ch.casinoBalance + pending.betWei - payout
          nonce := ch.nonce + 1 }
      let ch'' : Channel :=
        { ch' with games :=
            ch'.games ++ [.slots ch'.nonce pending.betWei [r0, r1, r2] multiplier payout] }
      match sign with
      | none => (.error "signing failed", { s with channel := ch'' })
      | some sig =>
        (.ok ⟨[r0, r1, r2], multiplier, payout, ch''.agentBalance, ch''.casinoBalance,
              ch''.nonce, sig⟩,
         { s with channel := ch'', pending := adel s.pending key })

-- ── Coinflip game (games/coinflip.js) ────────────────────────────────

/-- Result payload of coinflip.js `_reveal`. -/
structure CoinflipResult where
  choice : Option Coin
  result : Coin
  won : Bool
  payout : Int
  agentBalance : Int
  casinoBalance : Int
  nonce : Nat
  signature : String
deriving DecidableEq, Repr

/-- coinflip.js `_commit`.  The choice is typed, embedding the
`["heads","tails"].includes(choice)` validation; `maxMultiplier` is 2. -/
def coinflipCommit (seed commitment : String) (now : Nat) (betWei : Int) (choice : Coin)
    (s : EngState) : Except String CommitResult × EngState :=
  match validateBet 2 2 s.channel betWei with
  | .error e => (.error e, s)
  | .ok _ =>
    let key := (s.channel.agent, "coinflip")
    match aget s.pending key with
    | some _ => (.error "Already have a pending coinflip. Reveal or wait for timeout.", s)
    | none =>
      (.ok ⟨commitment, betWei, some choice⟩,
       { s with pending := aset s.pending key ⟨seed, betWei, some choice, "coinflip", now⟩ })

/-- Payout computation of coinflip.js `_reveal`: on a win
`betWei * 19n / 10n` (BigInt truncating division) capped at
`casinoBalance + betWei`, otherwise 0. -/
def coinflipPayout (betWei casinoBalance : Int) (won : Bool) : Int :=
  if won then
    let p := Int.tdiv (betWei * 19) 10
    if p > casinoBalance + betWei then casinoBalance + betWei else p
  else 0

/-- coinflip.js `_reveal`.  Result is heads when the big-endian uint32 at
offset 0 of the digest is even; a win pays `betWei * 19n / 10n` (BigInt
truncating division, `Int.tdiv`) capped at `casinoBalance + betWei`.
Ordering as in the source: the pending commit is deleted only after the
signature succeeds. -/
def coinflipReveal (sha256 : String → List Nat) (agentSeed : String) (now : Nat)
    (sign : Option String) (s : EngState) : Except String CoinflipResult × EngState :=
  let ch := s.channel
  let key := (ch.agent, "coinflip")
  match aget s.pending key with
  | none => (.error "No pending coinflip", s)
  | some pending =>
    if now - pending.timestamp > COMMIT_TIMEOUT then
      (.error "Commitment expired", { s with pending := adel s.pending key })
    else if ch.agentBalance < pending.betWei then
      (.error "Insufficient balance at reveal", { s with pending := adel s.pending key })
    else
      let h := computeResultHash sha256 pending.seed agentSeed ch.nonce
      let result : Coin := if be32 h 0 % 2 = 0 then .heads else .tails
      let won : Bool := decide (pending.choice = some result)
      let payout := coinflipPayout pending.betWei ch.casinoBalance won
      let ch' : Channel :=
        { ch with
          agentBalance := ch.agentBalance - pending.betWei + payout
          casinoBalance := ch.casinoBalance + pending.betWei - payout
          nonce := ch.nonce + 1 }
      let ch'' : Channel :=
        { ch' with games :=
            ch'.games ++ [.coinflip ch'.nonce pending.betWei pending.choice result won payout] }
      match sign with
      | none => (.error "signing failed", { s with channel := ch'' })
      | some sig =>
        (.ok ⟨pending.choice, result, won, payout, ch''.agentBalance, ch''.casinoBalance,
              ch''.nonce, sig⟩,
         { s with channel := ch'', pending := adel s.pending key })

-- ── Lotto game (games/lotto.js) ──────────────────────────────────────

def RANGE : Nat := 100

def PAYOUT_MULTIPLIER : Int := 85

/-- lotto.js `TICKET_PRICE = toWei('0.001')`. -/
def TICKET_PRICE : Int := 1000000000000000

def MAX_TICKETS_PER_DRAW : Nat := 10

/-- Result payload of lotto.js `_buy`. -/
structure LottoBuyResult where
  drawId : Nat
  pickedNumber : Nat
  ticketCount : Nat
  cost : Int
  agentBalance : Int
  casinoBalance : Int
  nonce : Nat
  signature : String
deriving DecidableEq, Repr

/-- Result payload of lotto.js `_claim`: either the early
`{ claimed: '0', message }` return with no signature, or the signed
claim result. -/
inductive LottoClaimResult where
  | noWinnings
  | claimed (claimedAmount remaining agentBalance casinoBalance : Int) (nonce : Nat)
      (signature : String)
deriving DecidableEq, Repr

/-- Result payload of lotto.js `applyWinnings`. -/
structure ApplyWinningsResult where
  payout : Int
  signature : String
  nonce : Nat
deriving DecidableEq, Repr

/-- lotto.js `_buy`.  Mirrors the source ordering: pick and count
validation, cost affordability, jackpot-coverage check, get-or-create
of the agent ticket array (a mutation that survives a failed per-agent
limit check), per-agent limit, balance/nonce update, ticket push and
pool update, signature request, round record push after signing. -/
def lottoBuy (pickedNumber ticketCount : Nat) (sign : Option String) (s : EngState) :
    Except String LottoBuyResult × EngState :=
  if pickedNumber < 1 ∨ pickedNumber > RANGE then
    (.error "Pick a number between 1 and 100", s)
  else if ticketCount < 1 ∨ ticketCount > MAX_TICKETS_PER_DRAW then
    (.error "Max 10 tickets per draw", s)
  else
    let costWei := TICKET_PRICE * (ticketCount : Int)
    if s.channel.agentBalance < costWei then (.error "Insufficient balance", s)
    else
      let maxPayoutWei := TICKET_PRICE * PAYOUT_MULTIPLIER * (ticketCount : Int)
      if maxPayoutWei > s.channel.casinoBalance then
        (.error "Casino cannot cover max payout", s)
      else
        let tickets0 :=
          if (aget s.draw.tickets s.channel.agent).isSome then s.draw.tickets
          else aset s.draw.tickets s.channel.agent []
        let agentTickets := (aget tickets0 s.channel.agent).getD []
        if agentTickets.length + ticketCount > MAX_TICKETS_PER_DRAW then
          (.error "Already have tickets this draw",
           { s with draw := { s.draw with tickets := tickets0 } })
        else
          let ch' : Channel :=
            { s.channel with
              agentBalance := s.channel.agentBalance - costWei
              casinoBalance := s.channel.casinoBalance + costWei
              nonce := s.channel.nonce + 1 }
          let tickets1 :=
            aset tickets0 s.channel.agent (agentTickets ++ List.replicate ticketCount pickedNumber)
          let draw' : Draw :=
            { s.draw with tickets := tickets1, totalPool := s.draw.totalPool + costWei }
          match sign with
          | none => (.error "signing failed", { s with channel := ch', draw := draw' })
          | some sig =>
            let ch'' : Channel :=
              { ch' with games :=
                  ch'.games ++
                    [.lottoBuy ch'.nonce s.draw.drawId pickedNumber ticketCount costWei] }
            (.ok ⟨s.draw.drawId, pickedNumber, ticketCount, costWei, ch''.agentBalance,
                  ch''.casinoBalance, ch''.nonce, sig⟩,
             { s with channel := ch'', draw := draw' })

/-- lotto.js `_claim`.  Zero unclaimed winnings returns `claimed: '0'`
without touching any state and without requesting a signature; otherwise
`min(unclaimed, casinoBalance)` moves house to agent, the remainder
stays unclaimed, and the new state is signed. -/
def lottoClaim (sign : Option String) (s : EngState) :
    Except String LottoClaimResult × EngState :=
  let unclaimed := ugetD s.unclaimed s.channel.agent
  if unclaimed = 0 then (.ok .noWinnings, s)
  else
    let claimable :=
      if unclaimed > s.channel.casinoBalance then s.channel.casinoBalance else unclaimed
    let ch' : Channel :=
      { s.channel with
        agentBalance := s.channel.agentBalance + claimable
        casinoBalance := s.channel.casinoBalance - claimable
        nonce := s.channel.nonce + 1 }
    let remaining := unclaimed - claimable
    let unclaimed' :=
      if remaining > 0 then aset s.unclaimed s.channel.agent remaining
      else adel s.unclaimed s.channel.agent
    match sign with
    | none => (.error "signing failed", { s with channel := ch', unclaimed := unclaimed' })
    | some sig =>
      (.ok (.claimed claimable remaining ch'.agentBalance ch'.casinoBalance ch'.nonce sig),
       { s with channel := ch', unclaimed := unclaimed' })

/-- lotto.js `applyWinnings` (called by the engine scheduler with a
winner payout): cap to the casino balance, move house to agent, bump the
nonce, decrement the unclaimed balance by the applied amount, sign. -/
def applyWinnings (payoutWei : Int) (sign : Option String) (s : EngState) :
    Except String ApplyWinningsResult × EngState :=
  let cappedPayout :=
    if payoutWei > s.channel.casinoBalance then s.channel.casinoBalance else payoutWei
  let ch' : Channel :=
    { s.channel with
      agentBalance := s.channel.agentBalance + cappedPayout
      casinoBalance := s.channel.casinoBalance - cappedPayout
      nonce := s.channel.nonce + 1 }
  let unclaimed := ugetD s.unclaimed s.channel.agent
  let unclaimed' :=
    if unclaimed ≥ cappedPayout then
      let remaining := unclaimed - cappedPayout
      if remaining > 0 then aset s.unclaimed s.channel.agent remaining
      else adel s.unclaimed s.channel.agent
    else s.unclaimed
  match sign with
  | none => (.error "signing failed", { s with channel := ch', unclaimed := unclaimed' })
  | some sig =>
    (.ok ⟨cappedPayout, sig, ch'.nonce⟩, { s with channel := ch', unclaimed := unclaimed' })

/-- The winners list built by the loop of lotto.js `executeDraw`. -/
def drawWinners (winningNumber : Nat) : List (String × List Nat) → List (String × Nat × Int)
  | [] => []
  | (a, ts) :: rest =>
    let matchCount := (ts.filter (fun t => t = winningNumber)).length
    if matchCount > 0 then
      (a, matchCount, TICKET_PRICE * PAYOUT_MULTIPLIER * (matchCount : Int)) ::
        drawWinners winningNumber rest
    else drawWinners winningNumber rest

/-- The unclaimed-winnings updates performed by the same loop of
lotto.js `executeDraw`. -/
def creditWinners (winningNumber : Nat) :
    List (String × List Nat) → UnclaimedStore → UnclaimedStore
  | [], u => u
  | (a, ts) :: rest, u =>
    let matchCount := (ts.filter (fun t => t = winningNumber)).length
    if matchCount > 0 then
      creditWinners winningNumber rest
        (aset u a (ugetD u a + TICKET_PRICE * PAYOUT_MULTIPLIER * (matchCount : Int)))
    else creditWinners winningNumber rest u

/-- Result payload of lotto.js `executeDraw`. -/
structure DrawResult where
  drawId : Nat
  winningNumber : Nat
  winners : List (String × Nat × Int)
deriving DecidableEq, Repr

/-- lotto.js `executeDraw`: derive the winning number from the committed
casino seed plus the public entropy string, mark the draw drawn, and
accrue each winner's payout to `unclaimedWinnings` — no channel is read
or written.  The follow-up `_startNewDraw()` creates an unrelated fresh
draw from fresh randomness and is not modelled (it only affects later
rounds). -/
def executeDraw (sha256 : String → List Nat) (s : EngState) :
    Except String DrawResult × EngState :=
  if s.draw.drawn then (.error "Draw already executed", s)
  else
    let agentEntropy := toString s.draw.tickets.length ++ ":" ++ toString s.draw.totalPool
    let h := computeResultHash sha256 s.draw.casinoSeed agentEntropy s.draw.drawId
    let winningNumber := be32 h 0 % RANGE + 1
    let draw' : Draw := { s.draw with drawn := true, winningNumber := some winningNumber }
    (.ok ⟨s.draw.drawId, winningNumber, drawWinners winningNumber s.draw.tickets⟩,
     { s with draw := draw',
              unclaimed := creditWinners winningNumber s.draw.tickets s.unclaimed })

-- ── Gaming engine channel lifecycle (gaming-engine.js) ───────────────

/-- gaming-engine.js `openChannel`: balances start equal to the deposits,
nonce 0, no games. -/
def openChannel (agent : String) (agentDeposit casinoDeposit : Int) : Channel :=
  ⟨agent, agentDeposit, casinoDeposit, agentDeposit, casinoDeposit, 0, []⟩

/-- Result payload of gaming-engine.js `closeChannel`. -/
structure CloseResult where
  agentBalance : Int
  casinoBalance : Int
  nonce : Nat
  signature : String
  totalGames : Nat
deriving DecidableEq, Repr

/-- gaming-engine.js `closeChannel`: re-verify conservation, refuse to
close on violation, otherwise sign the final state and return it. -/
def closeChannel (sign : Option String) (ch : Channel) : Except String CloseResult :=
  if ch.agentDeposit + ch.casinoDeposit ≠ ch.agentBalance + ch.casinoBalance then
    .error "INVARIANT VIOLATION"
  else
    match sign with
    | none => .error "signing failed"
    | some sig => .ok ⟨ch.agentBalance, ch.casinoBalance, ch.nonce, sig, ch.games.length⟩

-- ── Settlement contract (contracts/ChannelManager.sol) ───────────────

namespace ChannelManager

/-- Solidity `ChannelState` enum. -/
inductive CState where
  | none_
  | open_
  | disputed
  | closed
deriving DecidableEq, Repr

/-- On-chain `Channel` struct.  uint256 fields as `Nat` (all operations
stay far below 2^256 given the deposit bounds, and Solidity 0.8 checked
arithmetic reverts rather than wraps). -/
structure CChannel where
  agentDeposit : Nat
  casinoDeposit : Nat
  agentBalance : Nat
  casinoBalance : Nat
  nonce : Nat
  openedAt : Nat
  disputeDeadline : Nat
  state : CState
deriving DecidableEq, Repr

/-- Zero-initialized storage slot (`channels[agent]` before opening). -/
def emptyChannel : CChannel := ⟨0, 0, 0, 0, 0, 0, 0, .none_⟩

def MIN_DEPOSIT : Nat := 1000000000000000

def MAX_DEPOSIT : Nat := 10000000000000000000

/-- `1 hours` in seconds. -/
def MIN_CHANNEL_DURATION : Nat := 3600

def INSURANCE_BPS : Nat := 1000

/-- Typed revert selectors used by the embedded entry points. -/
inductive CErr where
  | invalidDeposit
  | channelExists
  | channelNotOpen
  | staleNonce
  | balanceMismatch
  | invalidSignature
  | gamesPlayed
  | tooEarly
  | exposureLimit
deriving DecidableEq, Repr

/-- Outcome of `_settle`: the two payouts after the insurance skim and
the amount sent to the insurance fund.  The channel storage is deleted. -/
structure Settlement where
  agentPayout : Nat
  casinoPayout : Nat
  insurance : Nat
deriving DecidableEq, Repr

/-- `_settle`: unlock collateral (tracked by the bankroll module), skim
`profit * INSURANCE_BPS / 10000` of any casino profit to the insurance
fund, pay out the rest. -/
def settle (casinoDeposit agentPayout casinoPayout : Nat) : Settlement :=
  if casinoPayout > casinoDeposit then
    let profit := casinoPayout - casinoDeposit
    let insuranceAmount := profit * INSURANCE_BPS / 10000
    ⟨agentPayout, casinoPayout - insuranceAmount, insuranceAmount⟩
  else ⟨agentPayout, casinoPayout, 0⟩

/-- `openChannel()` with `msg.value = value` at time `now`, acting on the
sender's current storage slot. -/
def openChannelC (value now : Nat) (ch : CChannel) : Except CErr CChannel :=
  if value < MIN_DEPOSIT ∨ value > MAX_DEPOSIT then .error .invalidDeposit
  else if ch.state ≠ .none_ then .error .channelExists
  else .ok ⟨value, 0, value, 0, 0, now, 0, .open_⟩

/-- `fundCasinoSide(agent)` with `msg.value = value`.  The delegated
`bankrollManager.lockCollateral` call is the external module; `lockOk`
embeds whether it accepts (it reverts past the exposure cap). -/
def fundCasinoSide (value : Nat) (lockOk : Bool) (ch : CChannel) : Except CErr CChannel :=
  if ch.state ≠ .open_ then .error .channelNotOpen
  else if !lockOk then .error .exposureLimit
  else .ok { ch with
    casinoDeposit := ch.casinoDeposit + value
    casinoBalance := ch.casinoBalance + value }

/-- `closeChannel(agentBalance, casinoBalance, nonce, casinoSig)` called
by the agent.  `sigValid` embeds the EIP-712 recovery check
(`_verifyCasinoSig`). -/
def closeChannelC (ch : CChannel) (agentBalance casinoBalance nonce : Nat)
    (sigValid : Bool) : Except CErr Settlement :=
  if ch.state ≠ .open_ then .error .channelNotOpen
  else if nonce ≤ ch.nonce then .error .staleNonce
  else if agentBalance + casinoBalance ≠ ch.agentDeposit + ch.casinoDeposit then
    .error .balanceMismatch
  else if !sigValid then .error .invalidSignature
  else .ok (settle ch.casinoDeposit agentBalance casinoBalance)

/-- `emergencyExit()` at time `now`: only with no games played and after
the minimum channel duration; returns the original deposits. -/
def emergencyExit (now : Nat) (ch : CChannel) : Except CErr Settlement :=
  if ch.state ≠ .open_ then .error .channelNotOpen
  else if ch.nonce ≠ 0 then .error .gamesPlayed
  else if now < ch.openedAt + MIN_CHANNEL_DURATION then .error .tooEarly
  else .ok (settle ch.casinoDeposit ch.agentDeposit ch.casinoDeposit)

end ChannelManager

-- ── Engine step relation ─────────────────────────────────────────────

/-- A fresh engine state: a newly opened channel, empty pending-commit
map, empty unclaimed-winnings map, and the current (fresh) lotto draw. -/
def initState (agent : String) (agentDeposit casinoDeposit : Int) (seed commitment : String)
    (drawId drawTime : Nat) : EngState :=
  ⟨openChannel agent agentDeposit casinoDeposit, [],  [],
   ⟨drawId, seed, commitment, drawTime, [], 0, false, none⟩⟩

/-- One engine operation on the state, exactly as the source executes it
(both success and error outcomes; the resulting state is the second
component of the operation).  `applyWinnings` is invoked only by the
scheduler with a winner payout `TICKET_PRICE * 85 * matches`, hence the
non-negativity side condition on its argument. -/
inductive Step : EngState → EngState → Prop where
  | slotsCommit (seed commitment : String) (now : Nat) (bet : Int) (s : EngState) :
      Step s (Casino.slotsCommit seed commitment now bet s).2
  | coinflipCommit (seed commitment : String) (now : Nat) (bet : Int) (choice : Coin)
      (s : EngState) :
      Step s (Casino.coinflipCommit seed commitment now bet choice s).2
  | slotsReveal (sha256 : String → List Nat) (agentSeed : String) (now : Nat)
      (sign : Option String) (s : EngState) :
      Step s (Casino.slotsReveal sha256 agentSeed now sign s).2
  | coinflipReveal (sha256 : String → List Nat) (agentSeed : String) (now : Nat)
      (sign : Option String) (s : EngState) :
      Step s (Casino.coinflipReveal sha256 agentSeed now sign s).2
  | lottoBuy (pickedNumber ticketCount : Nat) (sign : Option String) (s : EngState) :
      Step s (Casino.lottoBuy pickedNumber ticketCount sign s).2
  | lottoClaim (sign : Option String) (s : EngState) :
      Step s (Casino.lottoClaim sign s).2
  | applyWinnings (payoutWei : Int) (hpay : 0 ≤ payoutWei) (sign : Option String)
      (s : EngState) :
      Step s (Casino.applyWinnings payoutWei sign s).2
  | executeDraw (sha256 : String → List Nat) (s : EngState) :
      Step s (Casino.executeDraw sha256 s).2

/-- Conservation (invariant I1):
`agentBalance + casinoBalance = agentDeposit + casinoDeposit`. -/
def conserved (ch : Channel) : Prop :=
  ch.agentBalance + ch.casinoBalance = ch.agentDeposit + ch.casinoDeposit

instance (ch : Channel) : Decidable (conserved ch) := by
  unfold conserved; infer_instance

/-- The inductive engine invariant behind non-negativity: both balances
are non-negative, every stored pending commit carries a positive bet
(validateBet ran at commit time) and every unclaimed-winnings entry is
non-negative. -/
def Inv (s : EngState) : Prop :=
  0 ≤ s.channel.agentBalance ∧ 0 ≤ s.channel.casinoBalance ∧
  (∀ kv ∈ s.pending, 0 < kv.2.betWei) ∧
  (∀ av ∈ s.unclaimed, 0 ≤ av.2)

instance (s : EngState) : Decidable (Inv s) := by
  unfold Inv; infer_instance

-- ── Association-list lemmas ──────────────────────────────────────────

theorem aget_mem {κ β : Type} [DecidableEq κ] {m : List (κ × β)} {k : κ} {v : β}
    (h : aget m k = some v) : (k, v) ∈ m := by
  induction m with
  | nil => simp [aget] at h
  | cons hd tl ih =>
    obtain ⟨k0, v0⟩ := hd
    by_cases hk : k0 = k
    · subst hk
      simp [aget] at h
      subst h
      exact List.mem_cons_self _ _
    · simp [aget, hk] at h
      exact List.mem_cons_of_mem _ (ih h)

theorem forall_aset {κ β : Type} [DecidableEq κ] {m : List (κ × β)} {p : κ × β → Prop}
    {k : κ} {v : β} (hm : ∀ x ∈ m, p x) (hv : p (k, v)) : ∀ x ∈ aset m k v, p x := by
  induction m with
  | nil => simpa [aset] using hv
  | cons hd tl ih =>
    obtain ⟨k0, v0⟩ := hd
    by_cases hk : k0 = k
    · subst hk
      simp only [aset, if_pos rfl]
      intro x hx
      rcases List.mem_cons.mp hx with h | h
      · exact h ▸ hv
      · exact hm x (List.mem_cons_of_mem _ h)
    · simp only [aset, if_neg hk]
      intro x hx
      rcases List.mem_cons.mp hx with h | h
      · exact h ▸ hm _ (List.mem_cons_self _ _)
      · exact ih (fun y hy => hm y (List.mem_cons_of_mem _ hy)) x h

theorem forall_adel {κ β : Type} [DecidableEq κ] {m : List (κ × β)} {p : κ × β → Prop}
    {k : κ} (hm : ∀ x ∈ m, p x) : ∀ x ∈ adel m k, p x := by
  induction m with
  | nil => simp [adel]
  | cons hd tl ih =>
    obtain ⟨k0, v0⟩ := hd
    by_cases hk : k0 = k
    · simp only [adel, if_pos hk]
      exact fun x hx => hm x (List.mem_cons_of_mem _ hx)
    · simp only [adel, if_neg hk]
      intro x hx
      rcases List.mem_cons.mp hx with h | h
      · exact h ▸ hm _ (List.mem_cons_self _ _)
      · exact ih (fun y hy => hm y (List.mem_cons_of_mem _ hy)) x h

theorem ugetD_nonneg {u : UnclaimedStore} (h : ∀ av ∈ u, 0 ≤ av.2) (a : String) :
    0 ≤ ugetD u a := by
  unfold ugetD
  cases hg : aget u a with
  | none => simp
  | some v => simpa using h _ (aget_mem hg)

theorem mem_keys_aset {κ β : Type} [DecidableEq κ] {m : List (κ × β)} {k k' : κ} {v : β}
    (h : k' ∈ (aset m k v).map Prod.fst) : k' = k ∨ k' ∈ m.map Prod.fst := by
  induction m with
  | nil => simpa [aset] using h
  | cons hd tl ih =>
    obtain ⟨k0, v0⟩ := hd
    by_cases hk : k0 = k
    · subst hk
      simpa [aset] using h
    · simp only [aset, if_neg hk, List.map_cons, List.mem_cons] at h
      rcases h with h | h
      · exact Or.inr (by simp [h])
      · rcases ih h with h1 | h1
        · exact Or.inl h1
        · exact Or.inr (by simp [h1])

theorem nodup_aset {κ β : Type} [DecidableEq κ] {m : List (κ × β)} {k : κ} {v : β}
    (h : (m.map Prod.fst).Nodup) : ((aset m k v).map Prod.fst).Nodup := by
  induction m with
  | nil => simp [aset]
  | cons hd tl ih =>
    obtain ⟨k0, v0⟩ := hd
    simp only [List.map_cons, List.nodup_cons] at h
    by_cases hk : k0 = k
    · subst hk
      simpa [aset] using h
    · simp only [aset, if_neg hk, List.map_cons, List.nodup_cons]
      refine ⟨fun hmem => ?_, ih h.2⟩
      rcases mem_keys_aset hmem with h1 | h1
      · exact hk h1
      · exact h.1 h1

theorem mem_keys_adel {κ β : Type} [DecidableEq κ] {m : List (κ × β)} {k k' : κ}
    (h : k' ∈ (adel m k).map Prod.fst) : k' ∈ m.map Prod.fst := by
  induction m with
  | nil => simp [adel] at h
  | cons hd tl ih =>
    obtain ⟨k0, v0⟩ := hd
    by_cases hk : k0 = k
    · simp only [adel, if_pos hk] at h
      simp [h]
    · simp only [adel, if_neg hk, List.map_cons, List.mem_cons] at h
      rcases h with h | h
      · simp [h]
      · simp [ih h]

theorem nodup_adel {κ β : Type} [DecidableEq κ] {m : List (κ × β)} {k : κ}
    (h : (m.map Prod.fst).Nodup) : ((adel m k).map Prod.fst).Nodup := by
  induction m with
  | nil => simp [adel]
  | cons hd tl ih =>
    obtain ⟨k0, v0⟩ := hd
    simp only [List.map_cons, List.nodup_cons] at h
    by_cases hk : k0 = k
    · simp only [adel, if_pos hk]
      exact h.2
    · simp only [adel, if_neg hk, List.map_cons, List.nodup_cons]
      exact ⟨fun hmem => h.1 (mem_keys_adel hmem), ih h.2⟩

theorem PAYOUTS_getD_nonneg (i : Nat) : 0 ≤ PAYOUTS.getD i 0 := by
  match i with
  | 0 => decide
  | 1 => decide
  | 2 => decide
  | 3 => decide
  | 4 => decide
  | n + 5 => simp [PAYOUTS]

theorem forall_creditWinners {u : UnclaimedStore} {w : Nat} {ts : List (String × List Nat)}
    (h : ∀ av ∈ u, 0 ≤ av.2) : ∀ av ∈ creditWinners w ts u, 0 ≤ av.2 := by
  induction ts generalizing u with
  | nil => exact h
  | cons hd tl ih =>
    obtain ⟨a, tks⟩ := hd
    by_cases hm : ((tks.filter (fun t => t = w)).length > 0)
    · simp only [creditWinners, if_pos hm]
      refine ih (forall_aset h ?_)
      have h1 : (0 : Int) ≤ ugetD u a := ugetD_nonneg h a
      have h2 : (0 : Int) ≤ TICKET_PRICE * PAYOUT_MULTIPLIER *
          ((tks.filter (fun t => t = w)).length : Int) := by
        unfold TICKET_PRICE PAYOUT_MULTIPLIER
        positivity
      simpa using add_nonneg h1 h2
    · simp only [creditWinners, if_neg hm]
      exact ih h

-- ── Bounds on payouts and bet validation ─────────────────────────────

/-- `validateBet` accepts exactly the bets that are positive, affordable
for the agent, and covered by the bankroll with the safety margin. -/
theorem validateBet_ok_iff (maxMultiplier safetyMargin : Nat) (ch : Channel) (bet : Int) :
    validateBet maxMultiplier safetyMargin ch bet = .ok () ↔
      0 < bet ∧ bet ≤ ch.agentBalance ∧
        bet * (maxMultiplier : Int) * (safetyMargin : Int) ≤ ch.casinoBalance := by
  unfold validateBet
  repeat' split
  all_goals simp_all

theorem slotsMultiplier_nonneg (r0 r1 r2 : Nat) : 0 ≤ slotsMultiplier r0 r1 r2 := by
  unfold slotsMultiplier
  split
  · exact PAYOUTS_getD_nonneg r0
  · exact le_refl 0

theorem slotsPayout_nonneg (bet casino : Int) (r0 r1 r2 : Nat) (hb : 0 ≤ bet)
    (hc : 0 ≤ casino) : 0 ≤ slotsPayout bet casino r0 r1 r2 := by
  have h1 : 0 ≤ bet * slotsMultiplier r0 r1 r2 :=
    mul_nonneg hb (slotsMultiplier_nonneg r0 r1 r2)
  unfold slotsPayout
  dsimp only
  repeat' split
  all_goals omega

theorem slotsPayout_le (bet casino : Int) (r0 r1 r2 : Nat) (hc : 0 ≤ casino) :
    slotsPayout bet casino r0 r1 r2 ≤ casino := by
  unfold slotsPayout
  dsimp only
  repeat' split
  all_goals omega

theorem coinflipPayout_nonneg (bet casino : Int) (won : Bool) (hb : 0 ≤ bet)
    (hc : 0 ≤ casino) : 0 ≤ coinflipPayout bet casino won := by
  have h1 : 0 ≤ Int.tdiv (bet * 19) 10 :=
    Int.tdiv_nonneg (mul_nonneg hb (by norm_num)) (by norm_num)
  unfold coinflipPayout
  dsimp only
  repeat' split
  all_goals omega

theorem coinflipPayout_le (bet casino : Int) (won : Bool) (hb : 0 ≤ bet) (hc : 0 ≤ casino) :
    coinflipPayout bet casino won ≤ casino + bet := by
  unfold coinflipPayout
  dsimp only
  repeat' split
  all_goals omega

-- ── Conservation is preserved by every engine operation ──────────────

theorem conserved_slotsCommit (seed commitment : String) (now : Nat) (bet : Int)
    (s : EngState) (h : conserved s.channel) :
    conserved ((slotsCommit seed commitment now bet s).2).channel := by
  unfold slotsCommit
  split
  · exact h
  · dsimp only
    split
    · exact h
    · exact h

theorem conserved_coinflipCommit (seed commitment : String) (now : Nat) (bet : Int)
    (choice : Coin) (s : EngState) (h : conserved s.channel) :
    conserved ((coinflipCommit seed commitment now bet choice s).2).channel := by
  unfold coinflipCommit
  split
  · exact h
  · dsimp only
    split
    · exact h
    · exact h

theorem conserved_slotsReveal (sha256 : String → List Nat) (agentSeed : String) (now : Nat)
    (sign : Option String) (s : EngState) (h : conserved s.channel) :
    conserved ((slotsReveal sha256 agentSeed now sign s).2).channel := by
  unfold slotsReveal
  dsimp only
  split
  · exact h
  · split
    · exact h
    · split
      · exact h
      · split
        · unfold conserved at *
          dsimp only
          omega
        · unfold conserved at *
          dsimp only
          omega

theorem conserved_coinflipReveal (sha256 : String → List Nat) (agentSeed : String) (now : Nat)
    (sign : Option String) (s : EngState) (h : conserved s.channel) :
    conserved ((coinflipReveal sha256 agentSeed now sign s).2).channel := by
  unfold coinflipReveal
  dsimp only
  split
  · exact h
  · split
    · exact h
    · split
      · exact h
      · split
        · unfold conserved at *
          dsimp only
          omega
        · unfold conserved at *
          dsimp only
          omega

theorem conserved_lottoBuy (pickedNumber ticketCount : Nat) (sign : Option String)
    (s : EngState) (h : conserved s.channel) :
    conserved ((lottoBuy pickedNumber ticketCount sign s).2).channel := by
  unfold lottoBuy
  dsimp only
  repeat' split
  all_goals
    first
    | exact h
    | (unfold conserved at *; try dsimp only; omega)

theorem conserved_lottoClaim (sign : Option String) (s : EngState) (h : conserved s.channel) :
    conserved ((lottoClaim sign s).2).channel := by
  unfold lottoClaim
  dsimp only
  repeat' split
  all_goals
    first
    | exact h
    | (unfold conserved at *; try dsimp only; omega)

theorem conserved_applyWinnings (payoutWei : Int) (sign : Option String) (s : EngState)
    (h : conserved s.channel) :
    conserved ((applyWinnings payoutWei sign s).2).channel := by
  unfold applyWinnings
  dsimp only
  repeat' split
  all_goals
    first
    | exact h
    | (unfold conserved at *; try dsimp only; omega)

theorem conserved_executeDraw (sha256 : String → List Nat) (s : EngState)
    (h : conserved s.channel) : conserved ((executeDraw sha256 s).2).channel := by
  unfold executeDraw
  split
  · exact h
  · exact h

-- ── The non-negativity invariant is preserved by every operation ─────

/-- The conditional update of the unclaimed-winnings map performed by
claim and applyWinnings keeps entries non-negative. -/
theorem cond_aset_adel_nonneg {u : UnclaimedStore} {a : String} {x : Int}
    (hu : ∀ av ∈ u, 0 ≤ av.2) :
    ∀ av ∈ (if x > 0 then aset u a x else adel u a), 0 ≤ av.2 := by
  split
  next hx => exact forall_aset hu (le_of_lt hx)
  next => exact forall_adel hu

theorem inv_slotsCommit (seed commitment : String) (now : Nat) (bet : Int) (s : EngState)
    (h : Inv s) : Inv ((slotsCommit seed commitment now bet s).2) := by
  obtain ⟨ha, hc, hp, hu⟩ := h
  unfold slotsCommit
  split
  · exact ⟨ha, hc, hp, hu⟩
  next u heq =>
    dsimp only
    split
    · exact ⟨ha, hc, hp, hu⟩
    · have hbet : 0 < bet := by
        cases u
        exact ((validateBet_ok_iff 290 2 s.channel bet).mp heq).1
      exact ⟨ha, hc, forall_aset hp hbet, hu⟩

theorem inv_coinflipCommit (seed commitment : String) (now : Nat) (bet : Int) (choice : Coin)
    (s : EngState) (h : Inv s) : Inv ((coinflipCommit seed commitment now bet choice s).2) := by
  obtain ⟨ha, hc, hp, hu⟩ := h
  unfold coinflipCommit
  split
  · exact ⟨ha, hc, hp, hu⟩
  next u heq =>
    dsimp only
    split
    · exact ⟨ha, hc, hp, hu⟩
    · have hbet : 0 < bet := by
        cases u
        exact ((validateBet_ok_iff 2 2 s.channel bet).mp heq).1
      exact ⟨ha, hc, forall_aset hp hbet, hu⟩

theorem inv_slotsReveal (sha256 : String → List Nat) (agentSeed : String) (now : Nat)
    (sign : Option String) (s : EngState) (h : Inv s) :
    Inv ((slotsReveal sha256 agentSeed now sign s).2) := by
  obtain ⟨ha, hc, hp, hu⟩ := h
  unfold slotsReveal
  dsimp only
  split
  · exact ⟨ha, hc, hp, hu⟩
  next p heq =>
    have hbet : 0 < p.betWei := hp _ (aget_mem heq)
    have h1 : 0 ≤ slotsPayout p.betWei s.channel.casinoBalance
        (getSymbol (be32 (computeResultHash sha256 p.seed agentSeed s.channel.nonce) 0 % 100))
        (getSymbol (be32 (computeResultHash sha256 p.seed agentSeed s.channel.nonce) 4 % 100))
        (getSymbol (be32 (computeResultHash sha256 p.seed agentSeed s.channel.nonce) 8 % 100)) :=
      slotsPayout_nonneg _ _ _ _ _ (le_of_lt hbet) hc
    have h2 : slotsPayout p.betWei s.channel.casinoBalance
        (getSymbol (be32 (computeResultHash sha256 p.seed agentSeed s.channel.nonce) 0 % 100))
        (getSymbol (be32 (computeResultHash sha256 p.seed agentSeed s.channel.nonce) 4 % 100))
        (getSymbol (be32 (computeResultHash sha256 p.seed agentSeed s.channel.nonce) 8 % 100)) ≤
        s.channel.casinoBalance :=
      slotsPayout_le _ _ _ _ _ hc
    split
    · exact ⟨ha, hc, forall_adel hp, hu⟩
    · split
      · exact ⟨ha, hc, forall_adel hp, hu⟩
      · split
        · exact ⟨by dsimp only; omega, by dsimp only; omega, hp, hu⟩
        · exact ⟨by dsimp only; omega, by dsimp only; omega, forall_adel hp, hu⟩

theorem inv_coinflipReveal (sha256 : String → List Nat) (agentSeed : String) (now : Nat)
    (sign : Option String) (s : EngState) (h : Inv s) :
    Inv ((coinflipReveal sha256 agentSeed now sign s).2) := by
  obtain ⟨ha, hc, hp, hu⟩ := h
  unfold coinflipReveal
  dsimp only
  split
  · exact ⟨ha, hc, hp, hu⟩
  next p heq =>
    have hbet : 0 < p.betWei := hp _ (aget_mem heq)
    have h1 : 0 ≤ coinflipPayout p.betWei s.channel.casinoBalance
        (decide (p.choice = some
          (if be32 (computeResultHash sha256 p.seed agentSeed s.channel.nonce) 0 % 2 = 0
            then Coin.heads else Coin.tails))) :=
      coinflipPayout_nonneg _ _ _ (le_of_lt hbet) hc
    have h2 : coinflipPayout p.betWei s.channel.casinoBalance
        (decide (p.choice = some
          (if be32 (computeResultHash sha256 p.seed agentSeed s.channel.nonce) 0 % 2 = 0
            then Coin.heads else Coin.tails))) ≤
        s.channel.casinoBalance + p.betWei :=
      coinflipPayout_le _ _ _ (le_of_lt hbet) hc
    split
    · exact ⟨ha, hc, forall_adel hp, hu⟩
    · split
      · exact ⟨ha, hc, forall_adel hp, hu⟩
      · split
        · exact ⟨by dsimp only; omega, by dsimp only; omega, hp, hu⟩
        · exact ⟨by dsimp only; omega, by dsimp only; omega, forall_adel hp, hu⟩

theorem inv_lottoBuy (pickedNumber ticketCount : Nat) (sign : Option String) (s : EngState)
    (h : Inv s) : Inv ((lottoBuy pickedNumber ticketCount sign s).2) := by
  obtain ⟨ha, hc, hp, hu⟩ := h
  have hcost : (0 : Int) ≤ TICKET_PRICE * (ticketCount : Int) := by
    unfold TICKET_PRICE
    positivity
  unfold lottoBuy
  dsimp only
  repeat' split
  all_goals try exact ⟨ha, hc, hp, hu⟩
  all_goals refine ⟨?_, ?_, hp, hu⟩
  all_goals try dsimp only
  all_goals omega

theorem inv_lottoClaim (sign : Option String) (s : EngState) (h : Inv s) :
    Inv ((lottoClaim sign s).2) := by
  obtain ⟨ha, hc, hp, hu⟩ := h
  have hug : (0 : Int) ≤ ugetD s.unclaimed s.channel.agent := ugetD_nonneg hu _
  unfold lottoClaim
  dsimp only
  repeat' split
  all_goals try exact ⟨ha, hc, hp, hu⟩
  all_goals refine ⟨?_, ?_, hp, ?_⟩
  all_goals try dsimp only
  all_goals first
    | exact hu
    | exact forall_adel hu
    | (refine forall_aset hu ?_; omega)
    | omega

theorem inv_applyWinnings (payoutWei : Int) (sign : Option String) (s : EngState)
    (hpay : 0 ≤ payoutWei) (h : Inv s) : Inv ((applyWinnings payoutWei sign s).2) := by
  obtain ⟨ha, hc, hp, hu⟩ := h
  have hug : (0 : Int) ≤ ugetD s.unclaimed s.channel.agent := ugetD_nonneg hu _
  unfold applyWinnings
  dsimp only
  repeat' split
  all_goals refine ⟨?_, ?_, hp, ?_⟩
  all_goals try dsimp only
  all_goals first
    | exact hu
    | exact forall_adel hu
    | (refine forall_aset hu ?_; omega)
    | omega

theorem inv_executeDraw (sha256 : String → List Nat) (s : EngState) (h : Inv s) :
    Inv ((executeDraw sha256 s).2) := by
  obtain ⟨ha, hc, hp, hu⟩ := h
  unfold executeDraw
  split
  · exact ⟨ha, hc, hp, hu⟩
  · exact ⟨ha, hc, hp, forall_creditWinners hu⟩

/-- The non-negativity invariant is preserved by every engine step. -/
theorem inv_step {s s' : EngState} (h : Step s s') (hi : Inv s) : Inv s' := by
  cases h with
  | slotsCommit seed commitment now bet s => exact inv_slotsCommit _ _ _ _ _ hi
  | coinflipCommit seed commitment now bet choice s => exact inv_coinflipCommit _ _ _ _ _ _ hi
  | slotsReveal sha256 agentSeed now sign s => exact inv_slotsReveal _ _ _ _ _ hi
  | coinflipReveal sha256 agentSeed now sign s => exact inv_coinflipReveal _ _ _ _ _ hi
  | lottoBuy pickedNumber ticketCount sign s => exact inv_lottoBuy _ _ _ _ hi
  | lottoClaim sign s => exact inv_lottoClaim _ _ hi
  | applyWinnings payoutWei hpay sign s => exact inv_applyWinnings _ _ _ hpay hi
  | executeDraw sha256 s => exact inv_executeDraw _ _ hi

/-- Conservation is preserved by every single engine step. -/
theorem conserved_step {s s' : EngState} (h : Step s s') (hc : conserved s.channel) :
    conserved s'.channel := by
  cases h with
  | slotsCommit seed commitment now bet s => exact conserved_slotsCommit _ _ _ _ _ hc
  | coinflipCommit seed commitment now bet choice s =>
      exact conserved_coinflipCommit _ _ _ _ _ _ hc
  | slotsReveal sha256 agentSeed now sign s => exact conserved_slotsReveal _ _ _ _ _ hc
  | coinflipReveal sha256 agentSeed now sign s => exact conserved_coinflipReveal _ _ _ _ _ hc
  | lottoBuy pickedNumber ticketCount sign s => exact conserved_lottoBuy _ _ _ _ hc
  | lottoClaim sign s => exact conserved_lottoClaim _ _ hc
  | applyWinnings payoutWei hpay sign s => exact conserved_applyWinnings _ _ _ hc
  | executeDraw sha256 s => exact conserved_executeDraw _ _ hc

-- ── Key uniqueness of the pending-commit map ─────────────────────────

theorem nodup_slotsCommit (seed commitment : String) (now : Nat) (bet : Int) (s : EngState)
    (hn : (s.pending.map Prod.fst).Nodup) :
    ((slotsCommit seed commitment now bet s).2.pending.map Prod.fst).Nodup := by
  unfold slotsCommit
  dsimp only
  repeat' split
  all_goals first
    | exact hn
    | exact nodup_aset hn

theorem nodup_coinflipCommit (seed commitment : String) (now : Nat) (bet : Int) (choice : Coin)
    (s : EngState) (hn : (s.pending.map Prod.fst).Nodup) :
    ((coinflipCommit seed commitment now bet choice s).2.pending.map Prod.fst).Nodup := by
  unfold coinflipCommit
  dsimp only
  repeat' split
  all_goals first
    | exact hn
    | exact nodup_aset hn

theorem nodup_slotsReveal (sha256 : String → List Nat) (agentSeed : String) (now : Nat)
    (sign : Option String) (s : EngState) (hn : (s.pending.map Prod.fst).Nodup) :
    ((slotsReveal sha256 agentSeed now sign s).2.pending.map Prod.fst).Nodup := by
  unfold slotsReveal
  dsimp only
  repeat' split
  all_goals first
    | exact hn
    | exact nodup_adel hn

theorem nodup_coinflipReveal (sha256 : String → List Nat) (agentSeed : String) (now : Nat)
    (sign : Option String) (s : EngState) (hn : (s.pending.map Prod.fst).Nodup) :
    ((coinflipReveal sha256 agentSeed now sign s).2.pending.map Prod.fst).Nodup := by
  unfold coinflipReveal
  dsimp only
  repeat' split
  all_goals first
    | exact hn
    | exact nodup_adel hn

theorem pending_lottoBuy (pickedNumber ticketCount : Nat) (sign : Option String)
    (s : EngState) : ((lottoBuy pickedNumber ticketCount sign s).2).pending = s.pending := by
  unfold lottoBuy
  dsimp only
  repeat' split
  all_goals rfl

theorem pending_lottoClaim (sign : Option String) (s : EngState) :
    ((lottoClaim sign s).2).pending = s.pending := by
  unfold lottoClaim
  dsimp only
  repeat' split
  all_goals rfl

theorem pending_applyWinnings (payoutWei : Int) (sign : Option String) (s : EngState) :
    ((applyWinnings payoutWei sign s).2).pending = s.pending := by
  unfold applyWinnings
  dsimp only
  repeat' split
  all_goals rfl

theorem pending_executeDraw (sha256 : String → List Nat) (s : EngState) :
    ((executeDraw sha256 s).2).pending = s.pending := by
  unfold executeDraw
  dsimp only
  repeat' split
  all_goals rfl

/-- Key uniqueness of the pending-commit map is preserved by every
engine step: there is never more than one pending commit per
`(agent, gameName)`. -/
theorem nodup_step {s s' : EngState} (h : Step s s')
    (hn : (s.pending.map Prod.fst).Nodup) : (s'.pending.map Prod.fst).Nodup := by
  cases h with
  | slotsCommit seed commitment now bet s => exact nodup_slotsCommit _ _ _ _ _ hn
  | coinflipCommit seed commitment now bet choice s =>
      exact nodup_coinflipCommit _ _ _ _ _ _ hn
  | slotsReveal sha256 agentSeed now sign s => exact nodup_slotsReveal _ _ _ _ _ hn
  | coinflipReveal sha256 agentSeed now sign s => exact nodup_coinflipReveal _ _ _ _ _ hn
  | lottoBuy pickedNumber ticketCount sign s =>
      rw [pending_lottoBuy]
      exact hn
  | lottoClaim sign s =>
      rw [pending_lottoClaim]
      exact hn
  | applyWinnings payoutWei hpay sign s =>
      rw [pending_applyWinnings]
      exact hn
  | executeDraw sha256 s =>
      rw [pending_executeDraw]
      exact hn

-- ── Claim theorems ───────────────────────────────────────────────────

/-- C1: Conservation invariant.  For every engine operation (the
balance-mutating ones — slots reveal, coinflip reveal, lotto buy, lotto
claim, applyWinnings — as well as the commit and draw operations, on
both their success and error paths), `agentBalance + casinoBalance =
agentDeposit + casinoDeposit` holds after the operation whenever it held
before: every balance update in the code is of the symmetric form
`agentBalance ± x, casinoBalance ∓ x`. -/
theorem C1_conservation (s s' : EngState) (h : Step s s') (hc : conserved s.channel) :
    conserved s'.channel :=
  conserved_step h hc

/-- Fixture channel for the C1 witness: deposits 100/1000, balances
90/1010 (conserved), nonce 3, 40 wei of unclaimed lotto winnings. -/
def wChannel : Channel := ⟨"0xagent", 100, 1000, 90, 1010, 3, []⟩

def wDraw : Draw := ⟨1, "seed", "commitment", 0, [], 0, false, none⟩

def wState : EngState := ⟨wChannel, [], [("0xagent", 40)], wDraw⟩

theorem C1_conservation_witness :
    conserved ((lottoClaim (some "sig") wState).2).channel :=
  C1_conservation wState _ (Step.lottoClaim (some "sig") wState) (by decide)

/-- C2: Non-negativity.  Under every sequence of engine steps starting
from a freshly opened channel with non-negative deposits, both balances
stay non-negative: the bet is re-checked against `agentBalance` at
reveal, the winning coinflip payout is capped at
`casinoBalance + betWei`, and a lotto claim transfers at most
`casinoBalance`. -/
theorem C2_nonneg (agent : String) (agentDeposit casinoDeposit : Int)
    (seed commitment : String) (drawId drawTime : Nat) (s' : EngState)
    (h1 : 0 ≤ agentDeposit) (h2 : 0 ≤ casinoDeposit)
    (hsteps : Relation.ReflTransGen Step
      (initState agent agentDeposit casinoDeposit seed commitment drawId drawTime) s') :
    0 ≤ s'.channel.agentBalance ∧ 0 ≤ s'.channel.casinoBalance := by
  have hinv : Inv (initState agent agentDeposit casinoDeposit seed commitment drawId drawTime) := by
    refine ⟨h1, h2, ?_, ?_⟩
    · intro kv hkv
      simp [initState] at hkv
    · intro av hav
      simp [initState] at hav
  have hinv' : Inv s' := by
    induction hsteps with
    | refl => exact hinv
    | tail hab hbc ih => exact inv_step hbc ih
  exact ⟨hinv'.1, hinv'.2.1⟩

theorem C2_nonneg_witness :
    0 ≤ ((slotsCommit "sd" "cm" 0 1 (initState "0xa" 100 10000 "s" "c" 1 0)).2).channel.agentBalance ∧
    0 ≤ ((slotsCommit "sd" "cm" 0 1 (initState "0xa" 100 10000 "s" "c" 1 0)).2).channel.casinoBalance :=
  C2_nonneg "0xa" 100 10000 "s" "c" 1 0 _ (by norm_num) (by norm_num)
    (Relation.ReflTransGen.single (Step.slotsCommit "sd" "cm" 0 1 _))

/-- C10: frame effect of a lotto claim with zero unclaimed winnings.
Whatever the signer would answer, `_claim` returns the early
`claimed: '0'` payload (the `noWinnings` result, which carries no
signature) and the whole engine state — balances, nonce, games list,
pending commits, unclaimed map, draw — is untouched. -/
theorem C10_claim_zero_frame (sign : Option String) (s : EngState)
    (h0 : ugetD s.unclaimed s.channel.agent = 0) :
    (lottoClaim sign s).1 = .ok .noWinnings ∧ (lottoClaim sign s).2 = s := by
  unfold lottoClaim
  dsimp only
  rw [h0]
  simp

theorem C10_claim_zero_frame_witness :
    (lottoClaim (some "sig") ⟨wChannel, [], [], wDraw⟩).1 = .ok .noWinnings ∧
    (lottoClaim (some "sig") ⟨wChannel, [], [], wDraw⟩).2 = ⟨wChannel, [], [], wDraw⟩ :=
  C10_claim_zero_frame (some "sig") ⟨wChannel, [], [], wDraw⟩ (by decide)

-- ── C3: signing failure does not roll back (code bug exhibit) ────────

def c3channel : Channel := ⟨"0xa", 100, 1000, 100, 1000, 0, []⟩

def c3pendingStore : PendingStore := [(("0xa", "slots"), ⟨"cs", 10, none, "slots", 0⟩)]

def c3state : EngState := ⟨c3channel, c3pendingStore, [], wDraw⟩

/-- An arbitrary concrete digest function (all-zero digest). -/
def shaZero : String → List Nat := fun _ => List.replicate 32 0

/-- C3: the spec requires that when the signature request fails the
mutation is rolled back.  The code does not do this: evaluating slots
`_reveal` at a concrete pre-state with a failing signer leaves the
channel with the nonce incremented, the balances updated by the resolved
round (all-zero digest: three matching reels, multiplier 5, bet 10,
payout 50), the round pushed to `games`, and the pending commit still in
place — a partially mutated channel on an error path. -/
theorem C3_no_rollback_on_sign_failure :
    isErr (slotsReveal shaZero "as" 0 none c3state).1 = true ∧
    ((slotsReveal shaZero "as" 0 none c3state).2).channel.nonce = 1 ∧
    ((slotsReveal shaZero "as" 0 none c3state).2).channel.agentBalance = 140 ∧
    ((slotsReveal shaZero "as" 0 none c3state).2).channel.casinoBalance = 960 ∧
    ((slotsReveal shaZero "as" 0 none c3state).2).channel.games ≠ [] ∧
    ((slotsReveal shaZero "as" 0 none c3state).2).pending = c3pendingStore := by decide

-- ── C4: open-then-close with no games ────────────────────────────────

/-- The C4 on-chain fixture: agent opens with 0.01 ether at time 500,
casino funds 0.01 ether (bankroll module accepts). -/
def c4Open : Except ChannelManager.CErr ChannelManager.CChannel :=
  (ChannelManager.openChannelC 10000000000000000 500 ChannelManager.emptyChannel).bind
    (ChannelManager.fundCasinoSide 10000000000000000 true)

def c4Channel : ChannelManager.CChannel :=
  c4Open.toOption.getD ChannelManager.emptyChannel

/-- C4 counterexample: the claim as stated is false.  The off-chain
close of the no-games channel does produce a signed state with nonce 0
and unchanged balances, but presenting that state to the settlement
contract's `closeChannel` does not pay out: the contract requires
`nonce > ch.nonce` and the stored nonce is 0, so the call reverts with
`StaleNonce`. -/
theorem C4_counterexample :
    c4Open = .ok ⟨10000000000000000, 10000000000000000, 10000000000000000,
      10000000000000000, 0, 500, 0, .open_⟩ ∧
    closeChannel (some "sig") (openChannel "0xa" 10000000000000000 10000000000000000) =
      .ok ⟨10000000000000000, 10000000000000000, 0, "sig", 0⟩ ∧
    ChannelManager.closeChannelC c4Channel 10000000000000000 10000000000000000 0 true =
      .error .staleNonce := by decide

/-- C4 amended: opening 0.01/0.01 and playing no games, the off-chain
close yields a signed state with nonce 0 and unchanged balances; the
on-chain `closeChannel` with that nonce-0 state reverts with
`StaleNonce` (a signed state must have a strictly higher nonce than the
stored one); the deposits are instead recovered through
`emergencyExit`, which — after the minimum channel duration, with no
games played — pays out exactly 0.01 ether to each side with insurance
contribution 0. -/
theorem C4_amended :
    closeChannel (some "sig") (openChannel "0xa" 10000000000000000 10000000000000000) =
      .ok ⟨10000000000000000, 10000000000000000, 0, "sig", 0⟩ ∧
    ChannelManager.closeChannelC c4Channel 10000000000000000 10000000000000000 0 true =
      .error .staleNonce ∧
    ChannelManager.emergencyExit 4100 c4Channel =
      .ok ⟨10000000000000000, 10000000000000000, 0⟩ := by decide

-- ── C5: bet validation boundary ──────────────────────────────────────

theorem validateBet_isErr_iff (maxMultiplier safetyMargin : Nat) (ch : Channel) (bet : Int) :
    isErr (validateBet maxMultiplier safetyMargin ch bet) = true ↔
      ¬ validateBet maxMultiplier safetyMargin ch bet = .ok () := by
  unfold validateBet isErr
  repeat' split
  all_goals simp_all

/-- C5: `validateBet` with safety factor 2 fails exactly when
`betWei ≤ 0`, or `agentBalance < betWei`, or
`betWei * maxMultiplier * 2 > casinoBalance`; consequently the boundary
bet `q = casinoBalance / (maxMultiplier * 2)` (when positive and
affordable) is accepted and `q + 1` is rejected. -/
theorem C5_validateBet_boundary (maxMultiplier : Nat) (ch : Channel) (bet : Int)
    (q : Int) (hM : 0 < maxMultiplier)
    (hq : q = ch.casinoBalance / ((maxMultiplier : Int) * 2)) :
    (isErr (validateBet maxMultiplier 2 ch bet) = true ↔
      (bet ≤ 0 ∨ ch.agentBalance < bet ∨
        bet * (maxMultiplier : Int) * 2 > ch.casinoBalance)) ∧
    (0 < q → q ≤ ch.agentBalance → validateBet maxMultiplier 2 ch q = .ok ()) ∧
    (0 ≤ ch.casinoBalance → isErr (validateBet maxMultiplier 2 ch (q + 1)) = true) := by
  have hMpos : (0 : Int) < (maxMultiplier : Int) * 2 := by positivity
  refine ⟨?_, ?_, ?_⟩
  · rw [validateBet_isErr_iff, validateBet_ok_iff]
    constructor
    · intro h
      by_contra hcon
      push_neg at hcon
      exact h ⟨by omega, by omega, by omega⟩
    · intro h hok
      obtain ⟨h1, h2, h3⟩ := hok
      rcases h with h | h | h <;> omega
  · intro hq0 hqa
    rw [validateBet_ok_iff]
    refine ⟨hq0, hqa, ?_⟩
    have := Int.ediv_mul_le ch.casinoBalance (ne_of_gt hMpos)
    rw [← hq] at this
    calc q * (maxMultiplier : Int) * 2 = q * ((maxMultiplier : Int) * 2) := by ring
    _ ≤ ch.casinoBalance := this
  · intro hcb
    rw [validateBet_isErr_iff, validateBet_ok_iff]
    intro hok
    obtain ⟨h1, h2, h3⟩ := hok
    have := Int.lt_ediv_add_one_mul_self ch.casinoBalance hMpos
    rw [← hq] at this
    have h4 : (q + 1) * (maxMultiplier : Int) * 2 = (q + 1) * ((maxMultiplier : Int) * 2) := by
      ring
    omega

theorem C5_validateBet_boundary_witness :
    (isErr (validateBet 2 2 wChannel 3) = true ↔
      ((3 : Int) ≤ 0 ∨ wChannel.agentBalance < 3 ∨ (3 : Int) * 2 * 2 > wChannel.casinoBalance)) ∧
    (0 < (252 : Int) → (252 : Int) ≤ wChannel.agentBalance → validateBet 2 2 wChannel 252 = .ok ()) ∧
    (0 ≤ wChannel.casinoBalance → isErr (validateBet 2 2 wChannel (252 + 1)) = true) :=
  C5_validateBet_boundary 2 wChannel 3 252 (by norm_num) (by decide)

-- ── C6: slots reveal result derivation ───────────────────────────────

/-- The cumulative-weight loop of `_getSymbol` realizes exactly the
cumulative thresholds 30, 55, 75, 90, 100 of the weight vector
`{30,25,20,15,10}` (with the loop fallback 0 above 100). -/
theorem getSymbol_characterization (rng : Nat) :
    getSymbol rng =
      if rng < 30 then 0 else if rng < 55 then 1 else if rng < 75 then 2
      else if rng < 90 then 3 else if rng < 100 then 4 else 0 := by
  simp only [getSymbol, WEIGHTS, getSymbolAux]

theorem aget_aset_self {κ β : Type} [DecidableEq κ] (m : List (κ × β)) (k : κ) (v : β) :
    aget (aset m k v) k = some v := by
  induction m with
  | nil => simp [aget, aset]
  | cons hd tl ih =>
    obtain ⟨k0, v0⟩ := hd
    by_cases hk : k0 = k
    · simp [aset, hk, aget]
    · simp [aset, hk, aget, ih]

/-- The in-code payout of slots `_reveal` equals the capped product of
the spec: `min(bet * PAYOUTS[reel], casinoBalance)` on a
three-of-a-kind, 0 otherwise (for a non-negative bankroll). -/
theorem slotsPayout_eq_min (bet casino : Int) (r0 r1 r2 : Nat) (hc : 0 ≤ casino) :
    slotsPayout bet casino r0 r1 r2 =
      if r0 = r1 ∧ r1 = r2 then min (bet * PAYOUTS.getD r0 0) casino else 0 := by
  unfold slotsPayout slotsMultiplier
  dsimp only
  repeat' split
  all_goals simp_all [min_def]
  all_goals omega

/-- C6: slots reveal.  For a non-expired pending commit with a
sufficient re-checked balance, the reveal succeeds; the three reels are
the big-endian uint32 values at byte offsets 0, 4, 8 of
`SHA256(casinoSeed ++ ":" ++ agentSeed ++ ":" ++ decimal(nonce))`, each
modulo 100, mapped through the cumulative weight vector {30,25,20,15,10}
(final conjunct); iff the three reels are equal the payout is
`bet * PAYOUTS[reel]` with `PAYOUTS = {5,10,25,50,290}` capped to the
casino balance, otherwise 0; the balances are updated by
`agentBalance - bet + payout` / `casinoBalance + bet - payout`, the
nonce increases by exactly 1, and the pending commit is consumed. -/
theorem C6_slots_reveal (sha256 : String → List Nat) (agentSeed sig : String) (now : Nat)
    (s : EngState) (p : PendingCommit) (r0 r1 r2 : Nat) (payout : Int)
    (hp : aget s.pending (s.channel.agent, "slots") = some p)
    (hfresh : ¬ now - p.timestamp > COMMIT_TIMEOUT)
    (hbal : ¬ s.channel.agentBalance < p.betWei)
    (hcas : 0 ≤ s.channel.casinoBalance)
    (hr0 : r0 = getSymbol (be32 (computeResultHash sha256 p.seed agentSeed s.channel.nonce) 0 % 100))
    (hr1 : r1 = getSymbol (be32 (computeResultHash sha256 p.seed agentSeed s.channel.nonce) 4 % 100))
    (hr2 : r2 = getSymbol (be32 (computeResultHash sha256 p.seed agentSeed s.channel.nonce) 8 % 100))
    (hpay : payout = if r0 = r1 ∧ r1 = r2 then
        min (p.betWei * PAYOUTS.getD r0 0) s.channel.casinoBalance else 0) :
    (slotsReveal sha256 agentSeed now (some sig) s).1 =
      .ok ⟨[r0, r1, r2], slotsMultiplier r0 r1 r2, payout,
           s.channel.agentBalance - p.betWei + payout,
           s.channel.casinoBalance + p.betWei - payout, s.channel.nonce + 1, sig⟩ ∧
    ((slotsReveal sha256 agentSeed now (some sig) s).2).channel =
      { s.channel with
        agentBalance := s.channel.agentBalance - p.betWei + payout
        casinoBalance := s.channel.casinoBalance + p.betWei - payout
        nonce := s.channel.nonce + 1
        games := s.channel.games ++ [.slots (s.channel.nonce + 1) p.betWei [r0, r1, r2]
          (slotsMultiplier r0 r1 r2) payout] } ∧
    ((slotsReveal sha256 agentSeed now (some sig) s).2).pending =
      adel s.pending (s.channel.agent, "slots") ∧
    ((slotsReveal sha256 agentSeed now (some sig) s).2).unclaimed = s.unclaimed ∧
    (∀ rng, getSymbol rng =
      if rng < 30 then 0 else if rng < 55 then 1 else if rng < 75 then 2
      else if rng < 90 then 3 else if rng < 100 then 4 else 0) := by
  have hsp : slotsPayout p.betWei s.channel.casinoBalance r0 r1 r2 = payout := by
    rw [slotsPayout_eq_min p.betWei s.channel.casinoBalance r0 r1 r2 hcas, ← hpay]
  unfold slotsReveal
  dsimp only
  rw [hp]
  dsimp only
  rw [if_neg hfresh, if_neg hbal]
  rw [← hr0, ← hr1, ← hr2, hsp]
  exact ⟨rfl, rfl, rfl, rfl, getSymbol_characterization⟩

def c6pending : PendingCommit := ⟨"cs", 10, none, "slots", 0⟩

def c6state : EngState :=
  ⟨⟨"0xa", 100, 1000, 100, 1000, 0, []⟩, [(("0xa", "slots"), c6pending)], [], wDraw⟩

theorem C6_slots_reveal_witness :
    (slotsReveal shaZero "as" 0 (some "sig") c6state).1 =
      .ok ⟨[0, 0, 0], slotsMultiplier 0 0 0, 50,
           c6state.channel.agentBalance - c6pending.betWei + 50,
           c6state.channel.casinoBalance + c6pending.betWei - 50,
           c6state.channel.nonce + 1, "sig"⟩ :=
  (C6_slots_reveal shaZero "as" "sig" 0 c6state c6pending 0 0 0 50 (by decide) (by decide)
    (by decide) (by decide) (by decide) (by decide) (by decide) (by decide)).1

-- ── C7: coinflip payout arithmetic ───────────────────────────────────

/-- The in-code payout of coinflip `_reveal` (BigInt truncating
division) equals the spec payout `min(floor(bet * 19 / 10),
casinoBalance + bet)` on a win for a non-negative bet (where `/` is
floor division, which agrees with BigInt truncation on non-negative
operands), and 0 on a loss. -/
theorem coinflipPayout_eq (bet casino : Int) (won : Bool) (hb : 0 ≤ bet) :
    coinflipPayout bet casino won =
      if won then min (bet * 19 / 10) (casino + bet) else 0 := by
  have ht : Int.tdiv (bet * 19) 10 = bet * 19 / 10 :=
    Int.tdiv_eq_ediv (by positivity) (by norm_num)
  unfold coinflipPayout
  dsimp only
  rw [ht]
  repeat' split
  all_goals simp_all [min_def]
  all_goals omega

/-- C7: coinflip reveal.  For a non-expired pending commit with choice
`c` and a sufficient re-checked balance, the result is heads exactly
when the big-endian uint32 at offset 0 of the result digest is even; on
a win the payout is exactly `floor(bet * 19 / 10)` capped at
`casinoBalance + bet`, on a loss 0; balances move by the symmetric
`∓bet ± payout`, the nonce increases by exactly 1 and the commit is
consumed. -/
theorem C7_coinflip_payout (sha256 : String → List Nat) (agentSeed sig : String) (now : Nat)
    (s : EngState) (p : PendingCommit) (c result : Coin) (payout : Int)
    (hp : aget s.pending (s.channel.agent, "coinflip") = some p)
    (hchoice : p.choice = some c)
    (hfresh : ¬ now - p.timestamp > COMMIT_TIMEOUT)
    (hbal : ¬ s.channel.agentBalance < p.betWei)
    (hbet : 0 ≤ p.betWei)
    (hres : result =
      if be32 (computeResultHash sha256 p.seed agentSeed s.channel.nonce) 0 % 2 = 0
        then Coin.heads else Coin.tails)
    (hpay : payout = if c = result then
        min (p.betWei * 19 / 10) (s.channel.casinoBalance + p.betWei) else 0) :
    (coinflipReveal sha256 agentSeed now (some sig) s).1 =
      .ok ⟨some c, result, decide (c = result), payout,
           s.channel.agentBalance - p.betWei + payout,
           s.channel.casinoBalance + p.betWei - payout, s.channel.nonce + 1, sig⟩ ∧
    ((coinflipReveal sha256 agentSeed now (some sig) s).2).channel =
      { s.channel with
        agentBalance := s.channel.agentBalance - p.betWei + payout
        casinoBalance := s.channel.casinoBalance + p.betWei - payout
        nonce := s.channel.nonce + 1
        games := s.channel.games ++ [.coinflip (s.channel.nonce + 1) p.betWei (some c)
          result (decide (c = result)) payout] } ∧
    ((coinflipReveal sha256 agentSeed now (some sig) s).2).pending =
      adel s.pending (s.channel.agent, "coinflip") ∧
    ((coinflipReveal sha256 agentSeed now (some sig) s).2).unclaimed = s.unclaimed := by
  have hw : decide (some c = some result) = decide (c = result) := by simp
  have hpayc : coinflipPayout p.betWei s.channel.casinoBalance (decide (c = result)) = payout := by
    rw [coinflipPayout_eq _ _ _ hbet, hpay]
    simp only [decide_eq_true_eq]
  unfold coinflipReveal
  dsimp only
  rw [hp]
  dsimp only
  rw [if_neg hfresh, if_neg hbal, ← hres, hchoice, hw, hpayc]
  exact ⟨rfl, rfl, rfl, rfl⟩

def c7pending : PendingCommit := ⟨"cs", 1, some .heads, "coinflip", 0⟩

def c7state : EngState :=
  ⟨⟨"0xa", 10, 10, 10, 10, 0, []⟩, [(("0xa", "coinflip"), c7pending)], [], wDraw⟩

theorem C7_coinflip_payout_witness :
    (coinflipReveal shaZero "as" 0 (some "sig") c7state).1 =
      .ok ⟨some Coin.heads, Coin.heads, decide (Coin.heads = Coin.heads), 1,
           c7state.channel.agentBalance - c7pending.betWei + 1,
           c7state.channel.casinoBalance + c7pending.betWei - 1,
           c7state.channel.nonce + 1, "sig"⟩ :=
  (C7_coinflip_payout shaZero "as" "sig" 0 c7state c7pending .heads .heads 1 (by decide)
    (by decide) (by decide) (by decide) (by decide) (by decide) (by decide)).1

-- ── C9: single pending commit per (agent, game) ──────────────────────

/-- C9: at most one pending commit per `(agent, gameName)`.  (1) A slots
commit attempted while a pending slots commit for the agent exists fails
and changes no state; (2) likewise for coinflip; (3) a coinflip commit
by an agent whose only pending commit is for a different game succeeds
(given a valid bet) and stores the commit under the
`(agent, "coinflip")` key; (4) key uniqueness of the pending-commit map
is an invariant of every engine step. -/
theorem C9_single_pending (s s' : EngState) (seed commitment : String) (now : Nat)
    (bet : Int) (choice : Coin) (p : PendingCommit) :
    (aget s.pending (s.channel.agent, "slots") = some p →
      isErr (slotsCommit seed commitment now bet s).1 = true ∧
      (slotsCommit seed commitment now bet s).2 = s) ∧
    (aget s.pending (s.channel.agent, "coinflip") = some p →
      isErr (coinflipCommit seed commitment now bet choice s).1 = true ∧
      (coinflipCommit seed commitment now bet choice s).2 = s) ∧
    (aget s.pending (s.channel.agent, "coinflip") = none →
      validateBet 2 2 s.channel bet = .ok () →
      (coinflipCommit seed commitment now bet choice s).1 =
        .ok ⟨commitment, bet, some choice⟩ ∧
      aget ((coinflipCommit seed commitment now bet choice s).2).pending
          (s.channel.agent, "coinflip") =
        some ⟨seed, bet, some choice, "coinflip", now⟩) ∧
    ((s.pending.map Prod.fst).Nodup → Step s s' → (s'.pending.map Prod.fst).Nodup) := by
  refine ⟨fun hp => ?_, fun hp => ?_, fun hn hv => ?_, fun hnd hst => nodup_step hst hnd⟩
  · unfold slotsCommit
    dsimp only
    cases hval : validateBet 290 2 s.channel bet with
    | error e => exact ⟨rfl, rfl⟩
    | ok u => rw [hp]; exact ⟨rfl, rfl⟩
  · unfold coinflipCommit
    dsimp only
    cases hval : validateBet 2 2 s.channel bet with
    | error e => exact ⟨rfl, rfl⟩
    | ok u => rw [hp]; exact ⟨rfl, rfl⟩
  · unfold coinflipCommit
    dsimp only
    rw [hv, hn]
    exact ⟨rfl, aget_aset_self _ _ _⟩

def c9state : EngState :=
  ⟨⟨"0xa", 100, 1000, 100, 1000, 0, []⟩, [(("0xa", "slots"), c6pending)], [], wDraw⟩

theorem C9_single_pending_witness :
    (isErr (slotsCommit "s2" "c2" 5 10 c9state).1 = true ∧
      (slotsCommit "s2" "c2" 5 10 c9state).2 = c9state) ∧
    ((coinflipCommit "s2" "c2" 5 10 Coin.heads c9state).1 = .ok ⟨"c2", 10, some Coin.heads⟩ ∧
      aget ((coinflipCommit "s2" "c2" 5 10 Coin.heads c9state).2).pending
          (c9state.channel.agent, "coinflip") =
        some ⟨"s2", 10, some Coin.heads, "coinflip", 5⟩) :=
  ⟨(C9_single_pending c9state c9state "s2" "c2" 5 10 Coin.heads c6pending).1 (by decide),
   (C9_single_pending c9state c9state "s2" "c2" 5 10 Coin.heads c6pending).2.2.1 (by decide)
     (by decide)⟩

-- ── C8: lotto winnings lifecycle ─────────────────────────────────────

theorem aget_aset_ne {κ β : Type} [DecidableEq κ] (m : List (κ × β)) (k k' : κ) (v : β)
    (h : k' ≠ k) : aget (aset m k v) k' = aget m k' := by
  induction m with
  | nil =>
    simp only [aset, aget]
    rw [if_neg (fun hc : k = k' => h hc.symm)]
  | cons hd tl ih =>
    obtain ⟨k0, v0⟩ := hd
    by_cases hk : k0 = k
    · subst hk
      simp only [aset, if_pos rfl, aget]
      rw [if_neg (fun hc : k0 = k' => h hc.symm), if_neg (fun hc : k0 = k' => h hc.symm)]
    · simp only [aset, if_neg hk, aget]
      split
      · rfl
      · exact ih

theorem aget_eq_none_of_not_mem {κ β : Type} [DecidableEq κ] {m : List (κ × β)} {k : κ}
    (h : k ∉ m.map Prod.fst) : aget m k = none := by
  induction m with
  | nil => rfl
  | cons hd tl ih =>
    obtain ⟨k0, v0⟩ := hd
    simp only [List.map_cons, List.mem_cons] at h
    push_neg at h
    simp only [aget, if_neg (fun hc : k0 = k => h.1 hc.symm)]
    exact ih h.2

theorem aget_adel_self {κ β : Type} [DecidableEq κ] {m : List (κ × β)} {k : κ}
    (hn : (m.map Prod.fst).Nodup) : aget (adel m k) k = none := by
  induction m with
  | nil => rfl
  | cons hd tl ih =>
    obtain ⟨k0, v0⟩ := hd
    simp only [List.map_cons, List.nodup_cons] at hn
    by_cases hk : k0 = k
    · subst hk
      simp only [adel, if_pos rfl]
      exact aget_eq_none_of_not_mem hn.1
    · simp only [adel, if_neg hk, aget, if_neg hk]
      exact ih hn.2

theorem ugetD_aset_self (u : UnclaimedStore) (a : String) (x : Int) :
    ugetD (aset u a x) a = x := by
  unfold ugetD
  rw [aget_aset_self]
  rfl

theorem ugetD_aset_ne (u : UnclaimedStore) (a b : String) (x : Int) (h : b ≠ a) :
    ugetD (aset u a x) b = ugetD u b := by
  unfold ugetD
  rw [aget_aset_ne u a b x h]

theorem creditWinners_not_mem (w : Nat) (entries : List (String × List Nat))
    (u : UnclaimedStore) (a : String) (h : a ∉ entries.map Prod.fst) :
    ugetD (creditWinners w entries u) a = ugetD u a := by
  induction entries generalizing u with
  | nil => rfl
  | cons hd tl ih =>
    obtain ⟨b, ts⟩ := hd
    simp only [List.map_cons, List.mem_cons] at h
    push_neg at h
    unfold creditWinners
    dsimp only
    split
    · rw [ih _ h.2, ugetD_aset_ne _ _ _ _ h.1]
    · exact ih _ h.2

/-- lotto.js `executeDraw` credits each agent's unclaimed winnings by
exactly `TICKET_PRICE * 85 * (number of that agent's tickets matching
the winning number)`. -/
theorem ugetD_creditWinners (w : Nat) (entries : List (String × List Nat))
    (u : UnclaimedStore) (hn : (entries.map Prod.fst).Nodup) (a : String) :
    ugetD (creditWinners w entries u) a =
      ugetD u a + TICKET_PRICE * PAYOUT_MULTIPLIER *
        ((((aget entries a).getD []).filter (fun t => t = w)).length : Int) := by
  induction entries generalizing u with
  | nil => simp [creditWinners, aget]
  | cons hd tl ih =>
    obtain ⟨b, ts⟩ := hd
    simp only [List.map_cons, List.nodup_cons] at hn
    by_cases hab : b = a
    · subst hab
      have hmem : b ∉ tl.map Prod.fst := hn.1
      unfold creditWinners
      dsimp only
      split
      · rw [creditWinners_not_mem _ _ _ _ hmem, ugetD_aset_self]
        simp [aget]
      · next hmz =>
        rw [creditWinners_not_mem _ _ _ _ hmem]
        have hlen : (ts.filter (fun t => t = w)).length = 0 := by omega
        simp [aget, hlen]
    · unfold creditWinners
      dsimp only
      split
      · rw [ih _ hn.2, ugetD_aset_ne _ _ _ _ (fun hc : a = b => hab hc.symm)]
        simp [aget, hab]
      · rw [ih _ hn.2]
        simp [aget, hab]

/-- C8: lotto winnings lifecycle across channel close.
Part A: `executeDraw` derives the winning number from the committed
seed and the public entropy string, reads or writes no channel, and
credits each agent's `unclaimedWinnings` by
`TICKET_PRICE * 85 * (number of matching tickets)`.
Part B: a later `claim` in an open channel moves exactly
`min(unclaimed, casinoBalance)` from house to agent, leaves the
remainder unclaimed, increments the nonce by exactly 1, and returns a
fresh signed state. -/
theorem C8_lotto_winnings_lifecycle (sha256 : String → List Nat) (sig : String)
    (s : EngState) (w : Nat) (u : Int) :
    (s.draw.drawn = false →
      (s.draw.tickets.map Prod.fst).Nodup →
      w = be32 (computeResultHash sha256 s.draw.casinoSeed
          (toString s.draw.tickets.length ++ ":" ++ toString s.draw.totalPool)
          s.draw.drawId) 0 % RANGE + 1 →
      (executeDraw sha256 s).1 = .ok ⟨s.draw.drawId, w, drawWinners w s.draw.tickets⟩ ∧
      ((executeDraw sha256 s).2).channel = s.channel ∧
      (∀ a, ugetD ((executeDraw sha256 s).2).unclaimed a =
        ugetD s.unclaimed a + TICKET_PRICE * PAYOUT_MULTIPLIER *
          ((((aget s.draw.tickets a).getD []).filter (fun t => t = w)).length : Int))) ∧
    (ugetD s.unclaimed s.channel.agent = u → 0 < u →
      (s.unclaimed.map Prod.fst).Nodup →
      (lottoClaim (some sig) s).1 =
        .ok (.claimed (min u s.channel.casinoBalance) (u - min u s.channel.casinoBalance)
          (s.channel.agentBalance + min u s.channel.casinoBalance)
          (s.channel.casinoBalance - min u s.channel.casinoBalance)
          (s.channel.nonce + 1) sig) ∧
      ((lottoClaim (some sig) s).2).channel =
        { s.channel with
          agentBalance := s.channel.agentBalance + min u s.channel.casinoBalance
          casinoBalance := s.channel.casinoBalance - min u s.channel.casinoBalance
          nonce := s.channel.nonce + 1 } ∧
      ugetD ((lottoClaim (some sig) s).2).unclaimed s.channel.agent =
        u - min u s.channel.casinoBalance) := by
  constructor
  · intro hdrawn hnd hw
    unfold executeDraw
    rw [hdrawn]
    dsimp only
    rw [← hw]
    exact ⟨rfl, rfl, fun a => ugetD_creditWinners w s.draw.tickets s.unclaimed hnd a⟩
  · intro hu hupos hnu
    have hclaim : (if u > s.channel.casinoBalance then s.channel.casinoBalance else u) =
        min u s.channel.casinoBalance := by
      rw [min_def]
      repeat' split
      all_goals omega
    have hminle : min u s.channel.casinoBalance ≤ u := min_le_left _ _
    unfold lottoClaim
    dsimp only
    rw [hu, if_neg (by omega : ¬ u = 0), hclaim]
    refine ⟨rfl, rfl, ?_⟩
    dsimp only
    split
    · rw [ugetD_aset_self]
    · next hrem =>
      rw [ugetD, aget_adel_self hnu]
      simp only [Option.getD_none]
      omega

def c8draw : Draw :=
  ⟨1, "seed", "commitment", 0, [("0xa", [1])], 1000000000000000, false, none⟩

def c8state : EngState := ⟨⟨"0xa", 100, 1000, 100, 1000, 0, []⟩, [], [], c8draw⟩

theorem C8_lotto_winnings_lifecycle_witness :
    (executeDraw shaZero c8state).1 = .ok ⟨1, 1, drawWinners 1 c8draw.tickets⟩ ∧
    ugetD ((executeDraw shaZero c8state).2).unclaimed "0xa" =
      ugetD c8state.unclaimed "0xa" + TICKET_PRICE * PAYOUT_MULTIPLIER *
        ((((aget c8state.draw.tickets "0xa").getD []).filter (fun t => t = 1)).length : Int) ∧
    (lottoClaim (some "sig") wState).1 =
      .ok (.claimed (min 40 wState.channel.casinoBalance)
        (40 - min 40 wState.channel.casinoBalance)
        (wState.channel.agentBalance + min 40 wState.channel.casinoBalance)
        (wState.channel.casinoBalance - min 40 wState.channel.casinoBalance)
        (wState.channel.nonce + 1) "sig") :=
  ⟨((C8_lotto_winnings_lifecycle shaZero "sig" c8state 1 40).1 (by decide) (by decide)
      (by decide)).1,
   ((C8_lotto_winnings_lifecycle shaZero "sig" c8state 1 40).1 (by decide) (by decide)
      (by decide)).2.2 "0xa",
   ((C8_lotto_winnings_lifecycle shaZero "sig" wState 1 40).2 (by decide) (by norm_num)
      (by decide)).1⟩

end Casino
